import Mathlib

/-!
Shallow embedding of the order lifecycle and payment reconciliation workflow
of the digital-product-store server (src/src/controllers/orderController.ts
and src/src/controllers/webhookController.ts), over an explicit database
state.  Monetary values (double precision in the schema) are modelled as
rationals; stock counts (Int columns) as integers.  Each controller is a
pure function from the database state and the request data to the new
database state and the HTTP outcome; external collaborators (the payment
processor, the mailer) are modelled by explicit inputs recording their
outcome.
-/

namespace DigitalStore

/-- Order status enumeration, from the prisma OrderStatus enum
(PENDING | PAID | FAILED | CANCELLED). -/
inductive OrderStatus where
  | PENDING
  | PAID
  | FAILED
  | CANCELLED
  deriving DecidableEq, Repr

/-- Product row: id, name, price (double precision, modelled as a rational),
stock (Int column, modelled as an integer so that unguarded decrements can
drive it negative, as the code allows). -/
structure Product where
  id : String
  name : String
  price : ℚ
  stock : ℤ
  deriving DecidableEq, Repr

/-- OrderItem row: references one product, records the quantity and the unit
price captured at order-creation time. -/
structure OrderItem where
  productId : String
  price : ℚ
  quantity : ℤ
  deriving DecidableEq, Repr

/-- Order row with its included items. -/
structure Order where
  id : String
  customerEmail : String
  totalAmount : ℚ
  status : OrderStatus
  stripePaymentIntentId : Option String
  items : List OrderItem
  deriving DecidableEq, Repr

/-- Record of one attempted call to sendOrderConfirmationEmail
(emailService.ts); `ok` is the outcome of the attempt (the mailer is an
external collaborator, so the outcome is an input of the model). -/
structure EmailAttempt where
  toEmail : String
  orderId : String
  ok : Bool
  deriving DecidableEq, Repr

/-- The database state: the products table, the orders table (with items
included), and the log of attempted confirmation emails. -/
structure DB where
  products : List Product
  orders : List Order
  emails : List EmailAttempt
  deriving DecidableEq, Repr

/-- The uniform response envelope of src/utils/response.ts (bundled in the
repository snapshot as the second document of src/unnamed/part_000): an
ApiResponse `{success, message, data?}` sent with an HTTP status code.  The
HTTP status, the success flag and the message are tracked; the data payload
(the created or fetched records, already visible in the returned database
state) is not. -/
structure HttpResponse where
  status : ℕ
  success : Bool
  message : String
  deriving DecidableEq, Repr

/-- sendSuccess of src/utils/response.ts: status code, success := true, and
the message. -/
def sendSuccess (message : String) (code : ℕ) : HttpResponse :=
  ⟨code, true, message⟩

/-- sendError of src/utils/response.ts: status code, success := false, and
the message (its optional data argument, used only for validation errors,
is not tracked). -/
def sendError (message : String) (code : ℕ) : HttpResponse :=
  ⟨code, false, message⟩

/-- The AppError class of src/utils/errors.ts (bundled in the repository
snapshot as the first document of src/unnamed/part_000): a structured
domain error carrying a message and an HTTP status code, caught at the
controller boundary and mapped to sendError.  Its isOperational field is
the constant true and its captured stack trace is diagnostic only, so
neither is tracked. -/
structure AppError where
  message : String
  statusCode : ℕ
  deriving DecidableEq, Repr

/-- Decidable equality of results, so that concrete runs of the fallible
operations can be checked by evaluation. -/
instance {α β : Type} [DecidableEq α] [DecidableEq β] : DecidableEq (Except α β) :=
  fun a b =>
    match a, b with
    | .ok x, .ok y =>
      match decEq x y with
      | isTrue h => isTrue (by rw [h])
      | isFalse h => isFalse (by intro hc; cases hc; exact h rfl)
    | .error x, .error y =>
      match decEq x y with
      | isTrue h => isTrue (by rw [h])
      | isFalse h => isFalse (by intro hc; cases hc; exact h rfl)
    | .ok _, .error _ => isFalse (by intro hc; cases hc)
    | .error _, .ok _ => isFalse (by intro hc; cases hc)

/-- prisma.order.findUnique on the id column: the first (in a real database,
the only) order with the given id. -/
def findOrder (db : DB) (oid : String) : Option Order :=
  db.orders.find? (fun o => o.id = oid)

/-- prisma.product.findUnique on the id column. -/
def findProduct (db : DB) (pid : String) : Option Product :=
  db.products.find? (fun p => p.id = pid)

/-- prisma.product.update with a stock decrement: every product row matching
the id (in a real database, the unique one) has its stock lowered by qty. -/
def decrementStock (ps : List Product) (pid : String) (qty : ℤ) : List Product :=
  ps.map (fun p => if p.id = pid then { p with stock := p.stock - qty } else p)

/-- prisma.order.update setting the status of the order with the given id. -/
def setOrderStatus (db : DB) (oid : String) (st : OrderStatus) : DB :=
  { db with
    orders := db.orders.map (fun o => if o.id = oid then { o with status := st } else o) }

/-- Outcome of the stripe-signature check on an incoming webhook request
(webhookController.ts lines 11-32): the header may be absent, present but
failing stripe.webhooks.constructEvent against the configured
STRIPE_WEBHOOK_SECRET, or valid, in which case it yields an event with a
type and an optional metadata.orderId. -/
inductive SigVerification where
  | missingHeader
  | invalid
  | valid (eventType : String) (orderId : Option String)
  deriving DecidableEq, Repr

/-- The per-item stock-decrement loop of the payment_intent.succeeded branch
(webhookController.ts lines 64-73).  Each prisma.product.update is an
independent write with no per-item try/catch: if an item references no
existing product the update throws, aborting the loop with the earlier
decrements already committed.  Returns the product table after the writes
that happened and whether the loop ran to completion. -/
def webhookDecrementLoop : List Product → List OrderItem → List Product × Bool
  | ps, [] => (ps, true)
  | ps, item :: rest =>
    if ∃ p ∈ ps, p.id = item.productId then
      webhookDecrementLoop (decrementStock ps item.productId item.quantity) rest
    else
      (ps, false)

/-- handleStripeWebhook (webhookController.ts).  The signature verification
outcome and the mailer outcome are inputs; STRIPE_WEBHOOK_SECRET is assumed
configured.  Returns the new database state and the HTTP response. -/
def handleStripeWebhook (db : DB) (sig : SigVerification) (emailOk : Bool) :
    DB × HttpResponse :=
  match sig with
  | .missingHeader => (db, sendError "Missing stripe-signature header" 400)
  | .invalid => (db, sendError "Webhook Error" 400)
  | .valid eventType orderId? =>
    if eventType = "payment_intent.succeeded" then
      match orderId? with
      | none => (db, sendSuccess "Webhook processed successfully" 200)
      | some oid =>
        match findOrder db oid with
        | none => (db, sendSuccess "Webhook processed successfully" 200)
        | some order =>
          if order.status = OrderStatus.PENDING then
            let db1 := setOrderStatus db oid OrderStatus.PAID
            let res := webhookDecrementLoop db1.products order.items
            let db2 := { db1 with products := res.1 }
            if res.2 then
              let db3 := { db2 with
                emails := db2.emails ++ [⟨order.customerEmail, order.id, emailOk⟩] }
              (db3, sendSuccess "Webhook processed successfully" 200)
            else
              (db2, sendError "Webhook processing failed" 500)
          else
            (db, sendSuccess "Webhook processed successfully" 200)
    else if eventType = "payment_intent.payment_failed" then
      match orderId? with
      | none => (db, sendSuccess "Webhook processed successfully" 200)
      | some oid =>
        match findOrder db oid with
        | none => (db, sendError "Webhook processing failed" 500)
        | some _ =>
          (setOrderStatus db oid OrderStatus.FAILED,
           sendSuccess "Webhook processed successfully" 200)
    else
      (db, sendSuccess "Webhook processed successfully" 200)

/-- One element of the request body items array of POST /orders:
a productId and a quantity. -/
structure OrderItemInput where
  productId : String
  quantity : ℤ
  deriving DecidableEq, Repr

/-- The items.map body of createOrder (orderController.ts lines 25-45): for
each input item, look the product up in the batch-fetched list, fail 404 if
absent, fail 400 if recorded stock is below the requested quantity, else
capture the product's current price.  A throw aborts the whole map. -/
def buildOrderItems (products : List Product) :
    List OrderItemInput → Except AppError (List OrderItem)
  | [] => .ok []
  | item :: rest =>
    match products.find? (fun p => p.id = item.productId) with
    | none => .error ⟨"Product " ++ item.productId ++ " not found", 404⟩
    | some product =>
      if product.stock < item.quantity then
        .error ⟨"Insufficient stock for " ++ product.name ++ ". Available: " ++
          toString product.stock ++ ", Requested: " ++ toString item.quantity, 400⟩
      else do
        let restItems ← buildOrderItems products rest
        .ok ({ productId := item.productId, price := product.price,
               quantity := item.quantity } :: restItems)

/-- Running total accumulated by createOrder
(totalAmount += product.price * item.quantity, over the captured items). -/
def orderItemsTotal (items : List OrderItem) : ℚ :=
  items.foldl (fun acc it => acc + it.price * (it.quantity : ℚ)) 0

/-- createOrder (orderController.ts lines 9-77).  Resolves every referenced
product in one prisma.product.findMany batch lookup, fails 404 when the
fetched row count differs from the requested id count, builds the captured
items (404 / 400 throws abort everything before any write), then persists
the order with its items atomically in PENDING status.  `newOrderId` is the
identifier the database assigns to the new row. -/
def createOrder (db : DB) (items : List OrderItemInput) (customerEmail : String)
    (newOrderId : String) : Except AppError (DB × Order) :=
  let productIds := items.map (fun it => it.productId)
  let products := db.products.filter (fun p => p.id ∈ productIds)
  if products.length = productIds.length then do
    let orderItems ← buildOrderItems products items
    let totalAmount := orderItemsTotal orderItems
    let order : Order :=
      ⟨newOrderId, customerEmail, totalAmount, OrderStatus.PENDING, none, orderItems⟩
    .ok ({ db with orders := db.orders ++ [order] }, order)
  else
    .error ⟨"One or more products not found", 404⟩

/-- The payment-intent request sent to stripe.paymentIntents.create
(orderController.ts lines 104-111): amount in minor units, currency, and the
two metadata entries used for later correlation. -/
structure PaymentIntentRequest where
  amount : ℤ
  currency : String
  metadataOrderId : String
  metadataCustomerEmail : String
  deriving DecidableEq, Repr

/-- Math.round on the amount in cents (orderController.ts line 102);
JavaScript rounds half toward positive infinity, i.e. takes the floor of
q + 1/2, which is Mathlib's round on rationals (see jsRound_eq_round). -/
def jsRound (q : ℚ) : ℤ := (q + 1/2).floor

/-- createPaymentIntent (orderController.ts lines 79-149).  The processor is
an external collaborator: `piId` and `piSecret` are the id and client_secret
it returns on success.  On success the model yields the new database state,
the request that was sent to the processor, and the client secret returned
to the caller. -/
def createPaymentIntent (db : DB) (oid : String) (piId piSecret : String) :
    Except AppError (DB × PaymentIntentRequest × String) :=
  match findOrder db oid with
  | none => .error ⟨"Order not found", 404⟩
  | some order =>
    if order.status = OrderStatus.PENDING then
      let amountInCents := jsRound (order.totalAmount * 100)
      let req : PaymentIntentRequest :=
        ⟨amountInCents, "usd", order.id, order.customerEmail⟩
      let db1 := { db with
        orders := db.orders.map (fun o =>
          if o.id = oid then { o with stripePaymentIntentId := some piId } else o) }
      .ok (db1, req, piSecret)
    else
      .error ⟨"Order is not in pending status", 400⟩

/-- The valid status strings accepted by updateOrderStatus
(orderController.ts line 171). -/
def validStatuses : List String := ["PENDING", "PAID", "FAILED", "CANCELLED"]

/-- Parse a status string from the admin request body; some exactly on the
members of validStatuses. -/
def statusOfString : String → Option OrderStatus
  | "PENDING" => some OrderStatus.PENDING
  | "PAID" => some OrderStatus.PAID
  | "FAILED" => some OrderStatus.FAILED
  | "CANCELLED" => some OrderStatus.CANCELLED
  | _ => none

/-- The per-item stock-decrement loop of the admin override
(orderController.ts lines 189-208).  Unlike the webhook loop, each
prisma.product.update sits in its own try/catch: a failing decrement (an
item referencing no existing product) is logged and skipped, and the loop
continues with the remaining items. -/
def adminDecrementLoop : List Product → List OrderItem → List Product
  | ps, [] => ps
  | ps, item :: rest =>
    if ∃ p ∈ ps, p.id = item.productId then
      adminDecrementLoop (decrementStock ps item.productId item.quantity) rest
    else
      adminDecrementLoop ps rest

/-- updateOrderStatus, the admin status override (orderController.ts lines
151-236).  Fails 404 when the order is absent and 400 when the status string
is not in the valid enumeration; otherwise writes the new status, and when
the new status is PAID and the previous one was not, runs the caught
per-item decrement loop and then attempts the confirmation email (failure
non-fatal). -/
def updateOrderStatus (db : DB) (oid : String) (status : String) (emailOk : Bool) :
    Except AppError (DB × Order) :=
  match findOrder db oid with
  | none => .error ⟨"Order not found", 404⟩
  | some order =>
    match statusOfString status with
    | none => .error ⟨"Invalid status. Must be one of: PENDING, PAID, FAILED, CANCELLED", 400⟩
    | some st =>
      let db1 := setOrderStatus db oid st
      let updatedOrder := { order with status := st }
      if st = OrderStatus.PAID ∧ order.status ≠ OrderStatus.PAID then
        let db2 := { db1 with products := adminDecrementLoop db1.products order.items }
        let db3 := { db2 with
          emails := db2.emails ++ [⟨order.customerEmail, order.id, emailOk⟩] }
        .ok (db3, updatedOrder)
      else
        .ok (db1, updatedOrder)

/-- updateProductStock of the productController (bundled in the repository
snapshot as the last document of src/src/config/stripe.ts; routed as
PUT /products/:id/stock by src/src/routes/products/index.ts).  This is the
only write in the repository that mutates an existing Product row: it fails
404 when the id resolves to no product, and otherwise overwrites that
product's stock with the supplied value, touching only the products table
(the controller offers no price-changing write at all). -/
def updateProductStock (db : DB) (pid : String) (stock : ℤ) :
    Except AppError (DB × Product) :=
  match findProduct db pid with
  | none => .error ⟨"Product not found", 404⟩
  | some p =>
    .ok ({ db with products := db.products.map (fun q =>
            if q.id = pid then { q with stock := stock } else q) },
         { p with stock := stock })

/-- Total quantity ordered of one product across the items of an order
(an order may reference the same product in several items). -/
def orderedQty (items : List OrderItem) (pid : String) : ℤ :=
  ((items.filter (fun it => it.productId = pid)).map (fun it => it.quantity)).sum

theorem jsRound_eq_round (q : ℚ) : jsRound q = round q := by
  rw [jsRound, round_eq, Rat.floor_def', Rat.floor_def]

theorem orderedQty_nil (pid : String) : orderedQty [] pid = 0 := rfl

theorem orderedQty_cons (it : OrderItem) (items : List OrderItem) (pid : String) :
    orderedQty (it :: items) pid =
      (if it.productId = pid then it.quantity else 0) + orderedQty items pid := by
  by_cases h : it.productId = pid <;>
    simp [orderedQty, List.filter_cons, h]

theorem foldl_add_eq_sum {α : Type} (f : α → ℚ) (l : List α) (acc : ℚ) :
    l.foldl (fun a x => a + f x) acc = acc + (l.map f).sum := by
  induction l generalizing acc with
  | nil => simp
  | cons x l ih => simp [ih, add_assoc]

theorem orderItemsTotal_eq_sum (items : List OrderItem) :
    orderItemsTotal items = (items.map (fun it => it.price * (it.quantity : ℚ))).sum := by
  simpa [orderItemsTotal] using
    foldl_add_eq_sum (fun it => it.price * (it.quantity : ℚ)) items 0

theorem decrementStock_id (p : Product) (pid : String) (qty : ℤ) :
    (if p.id = pid then { p with stock := p.stock - qty } else p).id = p.id := by
  split <;> rfl

theorem exists_id_decrementStock (ps : List Product) (pid : String) (qty : ℤ) (x : String) :
    (∃ p ∈ decrementStock ps pid qty, p.id = x) ↔ ∃ p ∈ ps, p.id = x := by
  simp only [decrementStock, List.mem_map]
  constructor
  · rintro ⟨p, ⟨q, hq, rfl⟩, hid⟩
    exact ⟨q, hq, by rwa [decrementStock_id] at hid⟩
  · rintro ⟨q, hq, hid⟩
    exact ⟨_, ⟨q, hq, rfl⟩, by rwa [decrementStock_id]⟩

theorem webhookDecrementLoop_complete (items : List OrderItem) (ps : List Product)
    (h : ∀ it ∈ items, ∃ p ∈ ps, p.id = it.productId) :
    webhookDecrementLoop ps items =
      (ps.map (fun p => { p with stock := p.stock - orderedQty items p.id }), true) := by
  induction items generalizing ps with
  | nil =>
    simp [webhookDecrementLoop, orderedQty_nil]
  | cons it rest ih =>
    have hhead : ∃ p ∈ ps, p.id = it.productId := h it (by simp)
    rw [webhookDecrementLoop, if_pos hhead]
    rw [ih (decrementStock ps it.productId it.quantity) (by
      intro x hx
      exact (exists_id_decrementStock ps it.productId it.quantity x.productId).mpr
        (h x (by simp [hx])))]
    congr 1
    simp only [decrementStock, List.map_map]
    apply List.map_congr_left
    intro p _
    by_cases hp : p.id = it.productId
    · simp only [Function.comp, if_pos hp, orderedQty_cons, hp.symm, if_pos]
      congr 1
      omega
    · have : ¬ it.productId = p.id := fun hc => hp hc.symm
      simp only [Function.comp, if_neg hp, orderedQty_cons, if_neg this, zero_add]

theorem webhook_succ_noop (db : DB) (oid? : Option String) (emailOk : Bool)
    (h : ∀ oid, oid? = some oid → ∀ o, findOrder db oid = some o →
      o.status ≠ OrderStatus.PENDING) :
    handleStripeWebhook db (SigVerification.valid "payment_intent.succeeded" oid?) emailOk =
      (db, sendSuccess "Webhook processed successfully" 200) := by
  cases oid? with
  | none => rfl
  | some oid =>
    rcases hfo : findOrder db oid with _ | o
    · simp [handleStripeWebhook, hfo]
    · have hne : ¬ o.status = OrderStatus.PENDING := h oid rfl o hfo
      simp [handleStripeWebhook, hfo, hne]

/-- Claim C1: a signature-valid payment_intent.succeeded event whose
metadata.orderId names an existing PENDING order (each of whose items
references an existing product) transitions the order to PAID, decrements
each referenced product's stock by the total quantity ordered of it,
attempts the confirmation email, and acknowledges with success; an email
failure (emailOk = false) changes none of this. -/
theorem webhook_succeeded_settles_pending_order (db : DB) (oid : String) (order : Order)
    (emailOk : Bool)
    (h1 : findOrder db oid = some order) (h2 : order.status = OrderStatus.PENDING)
    (h3 : ∀ it ∈ order.items, ∃ p ∈ db.products, p.id = it.productId) :
    handleStripeWebhook db (SigVerification.valid "payment_intent.succeeded" (some oid)) emailOk =
      ({ products := db.products.map
           (fun p => { p with stock := p.stock - orderedQty order.items p.id }),
         orders := db.orders.map
           (fun o => if o.id = oid then { o with status := OrderStatus.PAID } else o),
         emails := db.emails ++ [⟨order.customerEmail, order.id, emailOk⟩] },
       sendSuccess "Webhook processed successfully" 200) := by
  have hloop := webhookDecrementLoop_complete order.items db.products h3
  simp [handleStripeWebhook, h1, h2, setOrderStatus, hloop]

/-- Claim C2: a signature-valid payment_intent.succeeded event whose metadata
carries no orderId, or whose orderId matches no order, or matches an order
that is not PENDING, is a complete no-op on the database (no status change,
no stock decrement, no email attempt) and is acknowledged with success. -/
theorem webhook_succeeded_idempotent_noop (db : DB) (oid? : Option String) (emailOk : Bool)
    (h : ∀ oid, oid? = some oid → ∀ o, findOrder db oid = some o →
      o.status ≠ OrderStatus.PENDING) :
    handleStripeWebhook db (SigVerification.valid "payment_intent.succeeded" oid?) emailOk =
      (db, sendSuccess "Webhook processed successfully" 200) :=
  webhook_succ_noop db oid? emailOk h

/-- Claim C8: a webhook request with a missing stripe-signature header, or a
signature failing verification against the configured secret, is rejected
with a 400 client error and leaves the whole database (orders, products,
emails) unchanged. -/
theorem webhook_bad_signature_no_mutation (db : DB) (emailOk : Bool) :
    handleStripeWebhook db SigVerification.missingHeader emailOk =
      (db, sendError "Missing stripe-signature header" 400)
    ∧ handleStripeWebhook db SigVerification.invalid emailOk =
      (db, sendError "Webhook Error" 400) :=
  ⟨rfl, rfl⟩

/-- Claim C10: a signature-valid payment_intent.payment_failed event whose
metadata.orderId matches no existing order makes the unconditional status
update throw: the handler responds with a 500 error and the database is
unchanged, so the FAILED transition is only ever applied to existing
orders. -/
theorem webhook_failed_unknown_order_500 (db : DB) (oid : String) (emailOk : Bool)
    (h : findOrder db oid = none) :
    handleStripeWebhook db (SigVerification.valid "payment_intent.payment_failed" (some oid))
      emailOk = (db, sendError "Webhook processing failed" 500) := by
  simp [handleStripeWebhook, h]

/-- Fixture state for concrete runs: one product, one PENDING order and one
PAID order over it. -/
def wdb : DB :=
  ⟨[⟨"p1", "Widget", 10, 5⟩],
   [⟨"o1", "a@b.c", 20, OrderStatus.PENDING, none, [⟨"p1", 10, 2⟩]⟩,
    ⟨"o2", "b@b.c", 30, OrderStatus.PAID, none, [⟨"p1", 10, 3⟩]⟩],
   []⟩

/-- The PENDING order of the fixture state. -/
def wOrder1 : Order := ⟨"o1", "a@b.c", 20, OrderStatus.PENDING, none, [⟨"p1", 10, 2⟩]⟩

/-- The PAID order of the fixture state. -/
def wOrder2 : Order := ⟨"o2", "b@b.c", 30, OrderStatus.PAID, none, [⟨"p1", 10, 3⟩]⟩

theorem webhook_succeeded_settles_pending_order_witness :
    handleStripeWebhook wdb (SigVerification.valid "payment_intent.succeeded" (some "o1"))
      false =
      ({ products := wdb.products.map
           (fun p => { p with stock := p.stock - orderedQty wOrder1.items p.id }),
         orders := wdb.orders.map
           (fun o => if o.id = "o1" then { o with status := OrderStatus.PAID } else o),
         emails := wdb.emails ++ [⟨wOrder1.customerEmail, wOrder1.id, false⟩] },
       sendSuccess "Webhook processed successfully" 200) :=
  webhook_succeeded_settles_pending_order wdb "o1" wOrder1 false (by decide) (by decide)
    (by decide)

theorem webhook_succeeded_idempotent_noop_witness :
    handleStripeWebhook wdb (SigVerification.valid "payment_intent.succeeded" (some "o2"))
      true = (wdb, sendSuccess "Webhook processed successfully" 200) :=
  webhook_succeeded_idempotent_noop wdb (some "o2") true (by
    intro oid hoid o hfo
    injection hoid with h1
    subst h1
    have h2 : findOrder wdb "o2" = some wOrder2 := rfl
    rw [h2] at hfo
    injection hfo with h3
    subst h3
    decide)

theorem webhook_failed_unknown_order_500_witness :
    handleStripeWebhook wdb (SigVerification.valid "payment_intent.payment_failed" (some "zz"))
      true = (wdb, sendError "Webhook processing failed" 500) :=
  webhook_failed_unknown_order_500 wdb "zz" true (by decide)

theorem createOrder_ok_inv (db : DB) (items : List OrderItemInput) (email nid : String)
    (db2 : DB) (ord : Order) (h : createOrder db items email nid = .ok (db2, ord)) :
    ∃ out, buildOrderItems
        (db.products.filter (fun p => p.id ∈ items.map (fun it => it.productId))) items =
          .ok out ∧
      ord = ⟨nid, email, orderItemsTotal out, OrderStatus.PENDING, none, out⟩ ∧
      db2 = { db with orders := db.orders ++ [ord] } := by
  simp only [createOrder] at h
  split at h
  · simp only [bind, Except.bind] at h
    split at h
    · exact absurd h (by simp)
    · rename_i out heq
      simp only [Except.ok.injEq, Prod.mk.injEq] at h
      obtain ⟨hdb2, hord⟩ := h
      subst hord
      exact ⟨out, heq, rfl, hdb2.symm⟩
  · exact absurd h (by simp)

theorem createPaymentIntent_eq_none (db : DB) (oid piId piSecret : String)
    (hfo : findOrder db oid = none) :
    createPaymentIntent db oid piId piSecret = .error ⟨"Order not found", 404⟩ := by
  unfold createPaymentIntent
  rw [hfo]

theorem createPaymentIntent_eq_some (db : DB) (oid piId piSecret : String) (o : Order)
    (hfo : findOrder db oid = some o) :
    createPaymentIntent db oid piId piSecret =
      if o.status = OrderStatus.PENDING then
        .ok ({ db with orders := db.orders.map (fun x =>
                if x.id = oid then { x with stripePaymentIntentId := some piId } else x) },
             ⟨jsRound (o.totalAmount * 100), "usd", o.id, o.customerEmail⟩, piSecret)
      else
        .error ⟨"Order is not in pending status", 400⟩ := by
  unfold createPaymentIntent
  rw [hfo]

theorem createPaymentIntent_ok_inv (db : DB) (oid piId piSecret : String) (db2 : DB)
    (req : PaymentIntentRequest) (sec : String)
    (h : createPaymentIntent db oid piId piSecret = .ok (db2, req, sec)) :
    ∃ o, findOrder db oid = some o ∧ o.status = OrderStatus.PENDING ∧
      db2 = { db with orders := db.orders.map (fun x =>
        if x.id = oid then { x with stripePaymentIntentId := some piId } else x) } ∧
      req = ⟨jsRound (o.totalAmount * 100), "usd", o.id, o.customerEmail⟩ ∧ sec = piSecret := by
  rcases hfo : findOrder db oid with _ | o
  · rw [createPaymentIntent_eq_none db oid piId piSecret hfo] at h
    exact Except.noConfusion h
  · rw [createPaymentIntent_eq_some db oid piId piSecret o hfo] at h
    by_cases hst : o.status = OrderStatus.PENDING
    · rw [if_pos hst] at h
      simp only [Except.ok.injEq, Prod.mk.injEq] at h
      exact ⟨o, rfl, hst, h.1.symm, h.2.1.symm, h.2.2.symm⟩
    · rw [if_neg hst] at h
      exact Except.noConfusion h

/-- Claim C3 fails on the code: the payment_intent.payment_failed branch
updates the referenced order to FAILED with no status guard, so webhook
processing does transition an order out of PAID.  Concretely, the PAID
fixture order o2 is moved to FAILED by a payment_failed event naming it. -/
theorem webhook_moves_paid_to_failed_counterexample :
    findOrder wdb "o2" = some wOrder2 ∧ wOrder2.status = OrderStatus.PAID ∧
    findOrder (handleStripeWebhook wdb
        (SigVerification.valid "payment_intent.payment_failed" (some "o2")) true).1 "o2" =
      some { wOrder2 with status := OrderStatus.FAILED } := by
  decide

/-- Claim C3 as amended: for an existing order that is not PENDING, the
payment-succeeded webhook path, other event kinds, rejected signatures,
order creation and payment-intent issuance never change any order's status;
the payment-failed path, however, sets the status of every order matching
the referenced id to FAILED unconditionally, so it preserves FAILED but can
move PAID or CANCELLED to FAILED; only the admin override otherwise
rewrites statuses. -/
theorem terminal_statuses_except_failed_event (db : DB) (oid : String) (o : Order)
    (emailOk : Bool)
    (h : findOrder db oid = some o) (ht : o.status ≠ OrderStatus.PENDING) :
    handleStripeWebhook db (SigVerification.valid "payment_intent.succeeded" (some oid))
        emailOk = (db, sendSuccess "Webhook processed successfully" 200)
    ∧ (handleStripeWebhook db (SigVerification.valid "payment_intent.payment_failed"
        (some oid)) emailOk).1.orders
        = db.orders.map (fun x =>
            if x.id = oid then { x with status := OrderStatus.FAILED } else x)
    ∧ (∀ ty oid2, ty ≠ "payment_intent.succeeded" → ty ≠ "payment_intent.payment_failed" →
        handleStripeWebhook db (SigVerification.valid ty oid2) emailOk =
          (db, sendSuccess "Webhook processed successfully" 200))
    ∧ handleStripeWebhook db SigVerification.missingHeader emailOk =
        (db, sendError "Missing stripe-signature header" 400)
    ∧ handleStripeWebhook db SigVerification.invalid emailOk =
        (db, sendError "Webhook Error" 400)
    ∧ (∀ items email nid db2 ord, createOrder db items email nid = Except.ok (db2, ord) →
        db2.orders = db.orders ++ [ord] ∧ ord.status = OrderStatus.PENDING)
    ∧ (∀ oid2 piId piSecret db2 req sec,
        createPaymentIntent db oid2 piId piSecret = Except.ok (db2, req, sec) →
        db2.orders.map Order.status = db.orders.map Order.status) := by
  refine ⟨webhook_succ_noop db (some oid) emailOk ?_, ?_, ?_, rfl, rfl, ?_, ?_⟩
  · intro oid2 hoid2 o2 hfo2
    injection hoid2 with he
    subst he
    rw [h] at hfo2
    injection hfo2 with he2
    subst he2
    exact ht
  · simp [handleStripeWebhook, h, setOrderStatus]
  · intro ty oid2 h1 h2
    simp [handleStripeWebhook, h1, h2]
  · intro items email nid db2 ord hco
    obtain ⟨out, _, hord, hdb2⟩ := createOrder_ok_inv db items email nid db2 ord hco
    exact ⟨by rw [hdb2], by rw [hord]⟩
  · intro oid2 piId piSecret db2 req sec hcp
    obtain ⟨o2, _, _, hdb2, _, _⟩ :=
      createPaymentIntent_ok_inv db oid2 piId piSecret db2 req sec hcp
    rw [hdb2]
    simp only [List.map_map]
    apply List.map_congr_left
    intro x _
    by_cases hx : x.id = oid2 <;> simp [Function.comp, hx]

theorem terminal_statuses_except_failed_event_witness :
    (handleStripeWebhook wdb (SigVerification.valid "payment_intent.payment_failed"
        (some "o2")) true).1.orders
      = wdb.orders.map (fun x =>
          if x.id = "o2" then { x with status := OrderStatus.FAILED } else x) :=
  (terminal_statuses_except_failed_event wdb "o2" wOrder2 true (by decide) (by decide)).2.1

/-- Claim C6: payment-intent issuance fails 404 when the order is absent,
fails 400 with no mutation when it is not PENDING, and otherwise asks the
processor for the order's total times 100 rounded to the nearest integer
(half toward positive infinity), with the order id and customer email as
metadata, persists the returned intent id on the order, and hands the
processor's client secret back to the caller.  Both failures carry no new
state, so nothing is mutated on error. -/
theorem createPaymentIntent_contract (db : DB) (oid piId piSecret : String) :
    (findOrder db oid = none →
      createPaymentIntent db oid piId piSecret = .error ⟨"Order not found", 404⟩)
    ∧ (∀ o, findOrder db oid = some o → o.status ≠ OrderStatus.PENDING →
        createPaymentIntent db oid piId piSecret =
          .error ⟨"Order is not in pending status", 400⟩)
    ∧ (∀ o, findOrder db oid = some o → o.status = OrderStatus.PENDING →
        createPaymentIntent db oid piId piSecret =
          .ok ({ db with orders := db.orders.map (fun x =>
                  if x.id = oid then { x with stripePaymentIntentId := some piId } else x) },
               ⟨round (o.totalAmount * 100), "usd", o.id, o.customerEmail⟩, piSecret)) := by
  refine ⟨fun h => createPaymentIntent_eq_none db oid piId piSecret h, ?_, ?_⟩
  · intro o hfo hst
    rw [createPaymentIntent_eq_some db oid piId piSecret o hfo, if_neg hst]
  · intro o hfo hst
    rw [createPaymentIntent_eq_some db oid piId piSecret o hfo, if_pos hst,
      jsRound_eq_round]

theorem createPaymentIntent_contract_witness :
    createPaymentIntent wdb "o1" "pi_1" "sec_1" =
      .ok ({ wdb with orders := wdb.orders.map (fun x =>
              if x.id = "o1" then { x with stripePaymentIntentId := some "pi_1" } else x) },
           ⟨round (wOrder1.totalAmount * 100), "usd", wOrder1.id, wOrder1.customerEmail⟩,
           "sec_1") :=
  (createPaymentIntent_contract wdb "o1" "pi_1" "sec_1").2.2 wOrder1 (by decide) (by decide)

theorem updateOrderStatus_eq_some (db : DB) (oid status : String) (emailOk : Bool)
    (order : Order) (st : OrderStatus)
    (hfo : findOrder db oid = some order) (hst : statusOfString status = some st) :
    updateOrderStatus db oid status emailOk =
      if st = OrderStatus.PAID ∧ order.status ≠ OrderStatus.PAID then
        .ok ({ products := adminDecrementLoop db.products order.items,
               orders := db.orders.map (fun o =>
                 if o.id = oid then { o with status := st } else o),
               emails := db.emails ++ [⟨order.customerEmail, order.id, emailOk⟩] },
             { order with status := st })
      else
        .ok ({ db with orders := db.orders.map (fun o =>
                 if o.id = oid then { o with status := st } else o) },
             { order with status := st }) := by
  unfold updateOrderStatus
  rw [hfo, hst]
  rfl

/-- Claim C9: for an admin status override on an existing order with a valid
target status, the per-item decrement loop and the confirmation-email
attempt run exactly when the target is PAID and the previous status was not
PAID (otherwise products and email log are untouched); the status update is
applied in both cases, the response is a success for any mailer outcome,
and inside the loop a failing per-item decrement (an item referencing no
existing product) is caught and skipped without stopping the remaining
decrements. -/
theorem updateOrderStatus_contract (db : DB) (oid status : String) (emailOk : Bool)
    (order : Order) (st : OrderStatus)
    (hfo : findOrder db oid = some order) (hst : statusOfString status = some st) :
    (updateOrderStatus db oid status emailOk =
      if st = OrderStatus.PAID ∧ order.status ≠ OrderStatus.PAID then
        .ok ({ products := adminDecrementLoop db.products order.items,
               orders := db.orders.map (fun o =>
                 if o.id = oid then { o with status := st } else o),
               emails := db.emails ++ [⟨order.customerEmail, order.id, emailOk⟩] },
             { order with status := st })
      else
        .ok ({ db with orders := db.orders.map (fun o =>
                 if o.id = oid then { o with status := st } else o) },
             { order with status := st }))
    ∧ (∀ ps item rest, (¬ ∃ p ∈ ps, p.id = item.productId) →
        adminDecrementLoop ps (item :: rest) = adminDecrementLoop ps rest)
    ∧ (∀ ps item rest, (∃ p ∈ ps, p.id = item.productId) →
        adminDecrementLoop ps (item :: rest) =
          adminDecrementLoop (decrementStock ps item.productId item.quantity) rest) := by
  refine ⟨updateOrderStatus_eq_some db oid status emailOk order st hfo hst, ?_, ?_⟩
  · intro ps item rest hno
    simp only [adminDecrementLoop]
    rw [if_neg hno]
  · intro ps item rest hyes
    simp only [adminDecrementLoop]
    rw [if_pos hyes]

theorem updateOrderStatus_contract_witness :
    updateOrderStatus wdb "o1" "PAID" false =
      .ok ({ products := adminDecrementLoop wdb.products wOrder1.items,
             orders := wdb.orders.map (fun o =>
               if o.id = "o1" then { o with status := OrderStatus.PAID } else o),
             emails := wdb.emails ++ [⟨wOrder1.customerEmail, wOrder1.id, false⟩] },
           { wOrder1 with status := OrderStatus.PAID }) := by
  have h := (updateOrderStatus_contract wdb "o1" "PAID" false wOrder1 OrderStatus.PAID
    (by decide) (by decide)).1
  rw [if_pos (by decide)] at h
  exact h

theorem filter_mem_length_eq_iff (A B : List String) (hA : A.Nodup) :
    (A.filter (fun x => x ∈ B)).length = B.length ↔ (∀ b ∈ B, b ∈ A) ∧ B.Nodup := by
  have hF : (A.filter (fun x => x ∈ B)).Nodup := hA.filter _
  constructor
  · intro hlen
    have hFB : ∀ x ∈ A.filter (fun x => x ∈ B), x ∈ B := by
      intro x hx
      simpa using (List.mem_filter.mp hx).2
    have h1 : (A.filter (fun x => x ∈ B)).toFinset ⊆ B.toFinset := by
      intro x hx
      exact List.mem_toFinset.mpr (hFB x (List.mem_toFinset.mp hx))
    have h2 : (A.filter (fun x => x ∈ B)).toFinset.card
        = (A.filter (fun x => x ∈ B)).length :=
      List.toFinset_card_of_nodup hF
    have h3 : B.toFinset.card = B.dedup.length := List.card_toFinset B
    have h4 : B.dedup.length ≤ B.length := (List.dedup_sublist B).length_le
    have hge : B.length ≤ B.toFinset.card := by
      calc B.length = (A.filter (fun x => x ∈ B)).length := hlen.symm
        _ = (A.filter (fun x => x ∈ B)).toFinset.card := h2.symm
        _ ≤ B.toFinset.card := Finset.card_le_card h1
    have hded : B.dedup.length = B.length :=
      le_antisymm h4 (by rw [← h3]; exact hge)
    have hnd : B.Nodup :=
      List.dedup_eq_self.mp ((List.dedup_sublist B).eq_of_length hded)
    have heq : (A.filter (fun x => x ∈ B)).toFinset = B.toFinset :=
      Finset.eq_of_subset_of_card_le h1
        (by rw [h2, hlen, List.toFinset_card_of_nodup hnd])
    refine ⟨?_, hnd⟩
    intro b hb
    have hbF : b ∈ A.filter (fun x => x ∈ B) :=
      List.mem_toFinset.mp (heq ▸ List.mem_toFinset.mpr hb)
    exact (List.mem_filter.mp hbF).1
  · rintro ⟨hsub, hnd⟩
    have hperm : (A.filter (fun x => x ∈ B)).Perm B := by
      apply (List.perm_ext_iff_of_nodup hF hnd).mpr
      intro x
      constructor
      · intro hx
        simpa using (List.mem_filter.mp hx).2
      · intro hx
        exact List.mem_filter.mpr ⟨hsub x hx, by simpa⟩
    exact hperm.length_eq

theorem filter_products_length (ps : List Product) (B : List String) :
    (ps.filter (fun p => p.id ∈ B)).length
      = ((ps.map Product.id).filter (fun x => x ∈ B)).length := by
  induction ps with
  | nil => rfl
  | cons p ps ih =>
    by_cases h : p.id ∈ B <;> simp [List.filter_cons, h, ih]

theorem createOrder_batch_check (db : DB) (items : List OrderItemInput)
    (hdb : (db.products.map Product.id).Nodup) :
    (db.products.filter (fun p => p.id ∈ items.map (fun it => it.productId))).length
        = (items.map (fun it => it.productId)).length ↔
      (∀ it ∈ items, ∃ p ∈ db.products, p.id = it.productId) ∧
        (items.map (fun it => it.productId)).Nodup := by
  rw [filter_products_length,
    filter_mem_length_eq_iff (db.products.map Product.id)
      (items.map (fun it => it.productId)) hdb]
  constructor
  · rintro ⟨hsub, hnd⟩
    refine ⟨?_, hnd⟩
    intro it hit
    have := hsub it.productId (List.mem_map.mpr ⟨it, hit, rfl⟩)
    obtain ⟨p, hp, hpid⟩ := List.mem_map.mp this
    exact ⟨p, hp, hpid⟩
  · rintro ⟨hres, hnd⟩
    refine ⟨?_, hnd⟩
    intro b hb
    obtain ⟨it, hit, rfl⟩ := List.mem_map.mp hb
    obtain ⟨p, hp, hpid⟩ := hres it hit
    exact List.mem_map.mpr ⟨p, hp, hpid⟩

theorem buildOrderItems_ok_or_400 (P : List Product) (items : List OrderItemInput)
    (hall : ∀ it ∈ items, ∃ p, P.find? (fun q => q.id = it.productId) = some p) :
    (∃ out, buildOrderItems P items = .ok out) ∨
      (∃ e, buildOrderItems P items = .error e ∧ e.statusCode = 400) := by
  induction items with
  | nil => exact .inl ⟨[], rfl⟩
  | cons it rest ih =>
    obtain ⟨p, hp⟩ := hall it (by simp)
    by_cases hs : p.stock < it.quantity
    · exact .inr ⟨_, by simp only [buildOrderItems, hp]; rw [if_pos hs], rfl⟩
    · rcases ih (fun x hx => hall x (by simp [hx])) with ⟨out, hout⟩ | ⟨e, he, h400⟩
      · exact .inl ⟨⟨it.productId, p.price, it.quantity⟩ :: out, by
          simp only [buildOrderItems, hp]
          rw [if_neg hs]
          simp [bind, Except.bind, hout]⟩
      · exact .inr ⟨e, by
          simp only [buildOrderItems, hp]
          rw [if_neg hs]
          simp [bind, Except.bind, he], h400⟩

/-- Claim C4 fails on the code as stated: the batch check compares the
number of fetched products with the number of requested ids, so an item
list that references the same existing product twice trips the 404 even
though every referenced productId resolves. -/
theorem createOrder_notfound_despite_resolving_ids :
    (∀ it ∈ ([⟨"p1", 1⟩, ⟨"p1", 1⟩] : List OrderItemInput),
      ∃ p ∈ wdb.products, p.id = it.productId)
    ∧ createOrder wdb [⟨"p1", 1⟩, ⟨"p1", 1⟩] "a@b.c" "o9" =
        .error ⟨"One or more products not found", 404⟩ := by
  decide

/-- Claim C4 as amended: over a database whose product ids are distinct,
order creation fails with the 404 not-found error (persisting nothing, as a
failed run returns no new state) exactly when some referenced productId
does not resolve to an existing product or the item list references the
same productId more than once; when every id resolves and the ids are
pairwise distinct, creation never fails with a 404 (it succeeds or fails
with the 400 insufficient-stock error). -/
theorem createOrder_notfound_iff (db : DB) (items : List OrderItemInput)
    (email nid : String) (hdb : (db.products.map Product.id).Nodup) :
    (∃ e, createOrder db items email nid = .error e ∧ e.statusCode = 404) ↔
      ¬ ((∀ it ∈ items, ∃ p ∈ db.products, p.id = it.productId) ∧
          (items.map (fun it => it.productId)).Nodup) := by
  constructor
  · rintro ⟨e, he, h404⟩ hcond
    have hlen := (createOrder_batch_check db items hdb).mpr hcond
    have hfind : ∀ it ∈ items,
        ∃ p, (db.products.filter
            (fun p => p.id ∈ items.map (fun it => it.productId))).find?
          (fun q => q.id = it.productId) = some p := by
      intro it hit
      obtain ⟨p, hp, hpid⟩ := hcond.1 it hit
      have hmem : p ∈ db.products.filter
          (fun p => p.id ∈ items.map (fun it => it.productId)) :=
        List.mem_filter.mpr ⟨hp, by
          simp only [decide_eq_true_eq]
          exact List.mem_map.mpr ⟨it, hit, hpid.symm⟩⟩
      have : ((db.products.filter
          (fun p => p.id ∈ items.map (fun it => it.productId))).find?
            (fun q => q.id = it.productId)).isSome :=
        List.find?_isSome.mpr ⟨p, hmem, by simp [hpid]⟩
      exact Option.isSome_iff_exists.mp this
    simp only [createOrder] at he
    rw [if_pos hlen] at he
    rcases buildOrderItems_ok_or_400 _ items hfind with ⟨out, hout⟩ | ⟨e2, he2, h400⟩
    · rw [hout] at he
      simp [bind, Except.bind] at he
    · rw [he2] at he
      simp only [bind, Except.bind, Except.error.injEq] at he
      rw [he] at h400
      omega
  · intro hncond
    have hlen : ¬ (db.products.filter
        (fun p => p.id ∈ items.map (fun it => it.productId))).length
          = (items.map (fun it => it.productId)).length :=
      fun hl => hncond ((createOrder_batch_check db items hdb).mp hl)
    refine ⟨⟨"One or more products not found", 404⟩, ?_, rfl⟩
    simp only [createOrder]
    rw [if_neg hlen]

theorem createOrder_notfound_iff_witness :
    (∃ e, createOrder wdb [⟨"p1", 1⟩, ⟨"p1", 2⟩] "a@b.c" "o9" = .error e ∧
        e.statusCode = 404) ↔
      ¬ ((∀ it ∈ ([⟨"p1", 1⟩, ⟨"p1", 2⟩] : List OrderItemInput),
            ∃ p ∈ wdb.products, p.id = it.productId)
          ∧ (([⟨"p1", 1⟩, ⟨"p1", 2⟩] : List OrderItemInput).map
              (fun it => it.productId)).Nodup) :=
  createOrder_notfound_iff wdb [⟨"p1", 1⟩, ⟨"p1", 2⟩] "a@b.c" "o9" (by decide)

theorem buildOrderItems_ok_inv (P : List Product) (items : List OrderItemInput) :
    ∀ out, buildOrderItems P items = .ok out →
      ∀ it2 ∈ out, ∃ p ∈ P, p.id = it2.productId ∧ it2.price = p.price := by
  induction items with
  | nil =>
    intro out h it2 hit2
    simp only [buildOrderItems, Except.ok.injEq] at h
    subst h
    simp at hit2
  | cons it rest ih =>
    intro out h it2 hit2
    cases hp : P.find? (fun q => q.id = it.productId) with
    | none =>
      simp only [buildOrderItems, hp] at h
      exact Except.noConfusion h
    | some p =>
      simp only [buildOrderItems, hp] at h
      by_cases hs : p.stock < it.quantity
      · rw [if_pos hs] at h
        exact absurd h (by simp)
      · rw [if_neg hs] at h
        cases hb : buildOrderItems P rest with
        | error e =>
          rw [hb] at h
          simp [bind, Except.bind] at h
        | ok out2 =>
          rw [hb] at h
          simp only [bind, Except.bind, Except.ok.injEq] at h
          subst h
          rcases List.mem_cons.mp hit2 with h1 | h2
          · subst h1
            refine ⟨p, List.mem_of_find?_eq_some hp, ?_, rfl⟩
            have hps := List.find?_some hp
            simpa using hps
          · exact ih out2 hb it2 h2

theorem updateProductStock_ok_inv (db : DB) (pid : String) (stock : ℤ) (db3 : DB)
    (p : Product) (h : updateProductStock db pid stock = .ok (db3, p)) :
    db3 = { db with products := db.products.map (fun q =>
      if q.id = pid then { q with stock := stock } else q) } ∧
    ∃ q, findProduct db pid = some q ∧ p = { q with stock := stock } := by
  unfold updateProductStock at h
  rcases hfp : findProduct db pid with _ | q <;> rw [hfp] at h
  · exact Except.noConfusion h
  · simp only [Except.ok.injEq, Prod.mk.injEq] at h
    exact ⟨h.1.symm, q, rfl, h.2.symm⟩

/-- Claim C5: a successfully created order's persisted total equals the sum
over its items of captured unit price times quantity, and each captured
price is the referenced product's price in the pre-creation state.  The
captured prices are copies stored on the order items, and the repository
offers no price-changing catalog write at all: its only mutation of an
existing Product row, updateProductStock, leaves the orders table (hence
every stored item price and total) unchanged, so no later catalog change
can retroactively alter an existing order's prices or total. -/
theorem createOrder_total_is_snapshot_sum (db : DB) (items : List OrderItemInput)
    (email nid : String) (db2 : DB) (ord : Order)
    (h : createOrder db items email nid = .ok (db2, ord)) :
    ord.totalAmount = (ord.items.map (fun it => it.price * (it.quantity : ℚ))).sum
    ∧ (∀ it ∈ ord.items, ∃ p ∈ db.products, p.id = it.productId ∧ it.price = p.price)
    ∧ db2.orders = db.orders ++ [ord]
    ∧ (∀ pid stock db3 p, updateProductStock db2 pid stock = Except.ok (db3, p) →
        db3.orders = db2.orders) := by
  obtain ⟨out, hbuild, hord, hdb2⟩ := createOrder_ok_inv db items email nid db2 ord h
  subst hord
  refine ⟨orderItemsTotal_eq_sum out, ?_, by rw [hdb2], ?_⟩
  · intro it hit
    obtain ⟨p, hpP, hpid, hprice⟩ := buildOrderItems_ok_inv _ items out hbuild it hit
    exact ⟨p, (List.mem_filter.mp hpP).1, hpid, hprice⟩
  · intro pid stock db3 p hup
    rw [(updateProductStock_ok_inv _ pid stock db3 p hup).1]

/-- Fixture order produced by a concrete successful createOrder run. -/
def wOrderNew : Order :=
  ⟨"o9", "x@y.z", orderItemsTotal [⟨"p1", 10, 2⟩], OrderStatus.PENDING, none, [⟨"p1", 10, 2⟩]⟩

theorem createOrder_total_is_snapshot_sum_witness :
    wOrderNew.totalAmount =
      (wOrderNew.items.map (fun it => it.price * (it.quantity : ℚ))).sum
    ∧ (∀ it ∈ wOrderNew.items, ∃ p ∈ wdb.products, p.id = it.productId ∧ it.price = p.price)
    ∧ ({ wdb with orders := wdb.orders ++ [wOrderNew] } : DB).orders = wdb.orders ++ [wOrderNew]
    ∧ (∀ pid stock db3 p,
        updateProductStock { wdb with orders := wdb.orders ++ [wOrderNew] } pid stock
            = Except.ok (db3, p) →
        db3.orders = ({ wdb with orders := wdb.orders ++ [wOrderNew] } : DB).orders) :=
  createOrder_total_is_snapshot_sum wdb [⟨"p1", 2⟩] "x@y.z" "o9"
    { wdb with orders := wdb.orders ++ [wOrderNew] } wOrderNew rfl

theorem find?_filter_of_imp {α : Type} (l : List α) (pa qa : α → Bool)
    (h : ∀ a, pa a = true → qa a = true) :
    (l.filter qa).find? pa = l.find? pa := by
  induction l with
  | nil => rfl
  | cons a l ih =>
    by_cases hpa : pa a = true
    · rw [List.filter_cons, if_pos (h a hpa), List.find?_cons_of_pos _ hpa,
        List.find?_cons_of_pos _ hpa]
    · by_cases hqa : qa a = true
      · rw [List.filter_cons, if_pos hqa, List.find?_cons_of_neg _ hpa,
          List.find?_cons_of_neg _ hpa, ih]
      · rw [List.filter_cons, if_neg hqa, List.find?_cons_of_neg _ hpa, ih]

theorem find?_of_mem_nodup (ps : List Product) (p : Product)
    (hnd : (ps.map Product.id).Nodup) (hp : p ∈ ps) :
    ps.find? (fun q => q.id = p.id) = some p := by
  induction ps with
  | nil => cases hp
  | cons a l ih =>
    rcases List.mem_cons.mp hp with rfl | hmem
    · rw [List.find?_cons_of_pos]
      simp
    · have hnd2 : (l.map Product.id).Nodup := by
        rw [List.map_cons, List.nodup_cons] at hnd
        exact hnd.2
      have hane : ¬ a.id = p.id := by
        intro he
        rw [List.map_cons, List.nodup_cons] at hnd
        exact hnd.1 (he ▸ List.mem_map.mpr ⟨p, hmem, rfl⟩)
      rw [List.find?_cons_of_neg]
      · exact ih hnd2 hmem
      · simpa using hane

theorem buildOrderItems_insufficient (P : List Product) :
    ∀ items : List OrderItemInput,
      (∀ it ∈ items, ∃ p, P.find? (fun q => q.id = it.productId) = some p) →
      (∃ it ∈ items, ∃ p, P.find? (fun q => q.id = it.productId) = some p ∧
        p.stock < it.quantity) →
      ∃ it p, it ∈ items ∧ P.find? (fun q => q.id = it.productId) = some p ∧
        p.stock < it.quantity ∧
        buildOrderItems P items = .error
          ⟨"Insufficient stock for " ++ p.name ++ ". Available: " ++ toString p.stock ++
            ", Requested: " ++ toString it.quantity, 400⟩ := by
  intro items
  induction items with
  | nil =>
    rintro _ ⟨it, hit, _⟩
    exact absurd hit (by simp)
  | cons it rest ih =>
    intro hall hins
    obtain ⟨p, hp⟩ := hall it (by simp)
    by_cases hs : p.stock < it.quantity
    · refine ⟨it, p, by simp, hp, hs, ?_⟩
      simp only [buildOrderItems, hp]
      rw [if_pos hs]
    · have hins2 : ∃ x ∈ rest, ∃ q, P.find? (fun r => r.id = x.productId) = some q ∧
          q.stock < x.quantity := by
        obtain ⟨x, hx, q, hq, hqs⟩ := hins
        rcases List.mem_cons.mp hx with rfl | hxr
        · rw [hp] at hq
          injection hq with he
          subst he
          exact absurd hqs hs
        · exact ⟨x, hxr, q, hq, hqs⟩
      obtain ⟨x, q, hxr, hq, hqs, herr⟩ := ih (fun y hy => hall y (by simp [hy])) hins2
      refine ⟨x, q, by simp [hxr], hq, hqs, ?_⟩
      simp only [buildOrderItems, hp]
      rw [if_neg hs]
      simp [bind, Except.bind, herr]

/-- Claim C7 fails on the code as stated: when an item list contains both an
insufficiently stocked item and an item whose productId does not resolve,
the batch length check fires first, so the request fails with the 404
not-found error instead of the 400 insufficient-stock error naming the
product and the counts. -/
theorem createOrder_insufficient_but_notfound_counterexample :
    (∃ it ∈ ([⟨"p0", 1⟩, ⟨"p1", 9⟩] : List OrderItemInput),
        ∃ p ∈ wdb.products, p.id = it.productId ∧ p.stock < it.quantity)
    ∧ createOrder wdb [⟨"p0", 1⟩, ⟨"p1", 9⟩] "a@b.c" "o9" =
        .error ⟨"One or more products not found", 404⟩ := by
  decide

/-- Claim C7 as amended: over a database with distinct product ids, when
every referenced productId resolves and the referenced ids are pairwise
distinct, an order-creation request with some item's quantity exceeding the
referenced product's recorded stock fails with a 400 error whose message
names that product, its available stock and the requested count, and no
order or items are persisted (a failed run returns no new state); without
those provisos the request can instead fail with the 404 not-found error. -/
theorem createOrder_insufficient_stock_400 (db : DB) (items : List OrderItemInput)
    (email nid : String)
    (hdb : (db.products.map Product.id).Nodup)
    (hres : ∀ it ∈ items, ∃ p ∈ db.products, p.id = it.productId)
    (hnd : (items.map (fun it => it.productId)).Nodup)
    (hins : ∃ it ∈ items, ∃ p ∈ db.products, p.id = it.productId ∧
      p.stock < it.quantity) :
    ∃ it p, it ∈ items ∧ findProduct db it.productId = some p ∧ p.stock < it.quantity ∧
      createOrder db items email nid = .error
        ⟨"Insufficient stock for " ++ p.name ++ ". Available: " ++ toString p.stock ++
          ", Requested: " ++ toString it.quantity, 400⟩ := by
  have hlen := (createOrder_batch_check db items hdb).mpr ⟨hres, hnd⟩
  have hPfind : ∀ it ∈ items,
      ((db.products.filter (fun p => p.id ∈ items.map (fun it => it.productId))).find?
        (fun q => q.id = it.productId)) = findProduct db it.productId := by
    intro it hit
    apply find?_filter_of_imp
    intro a ha
    simp only [decide_eq_true_eq] at ha ⊢
    rw [ha]
    exact List.mem_map.mpr ⟨it, hit, rfl⟩
  have hall : ∀ it ∈ items,
      ∃ p, ((db.products.filter
          (fun p => p.id ∈ items.map (fun it => it.productId))).find?
        (fun q => q.id = it.productId)) = some p := by
    intro it hit
    obtain ⟨p, hp, hpid⟩ := hres it hit
    refine ⟨p, ?_⟩
    rw [hPfind it hit]
    show db.products.find? (fun q => q.id = it.productId) = some p
    rw [← hpid]
    exact find?_of_mem_nodup db.products p hdb hp
  have hins2 : ∃ it ∈ items,
      ∃ p, ((db.products.filter
          (fun p => p.id ∈ items.map (fun it => it.productId))).find?
        (fun q => q.id = it.productId)) = some p ∧ p.stock < it.quantity := by
    obtain ⟨it, hit, p, hpmem, hpid, hstock⟩ := hins
    refine ⟨it, hit, p, ?_, hstock⟩
    rw [hPfind it hit]
    show db.products.find? (fun q => q.id = it.productId) = some p
    rw [← hpid]
    exact find?_of_mem_nodup db.products p hdb hpmem
  obtain ⟨it, p, hit, hfind, hstock, herr⟩ :=
    buildOrderItems_insufficient _ items hall hins2
  refine ⟨it, p, hit, ?_, hstock, ?_⟩
  · rw [← hPfind it hit]
    exact hfind
  · simp only [createOrder]
    rw [if_pos hlen, herr]
    rfl

theorem createOrder_insufficient_stock_400_witness :
    ∃ it p, it ∈ ([⟨"p1", 9⟩] : List OrderItemInput) ∧
      findProduct wdb it.productId = some p ∧ p.stock < it.quantity ∧
      createOrder wdb [⟨"p1", 9⟩] "x@y.z" "o9" = .error
        ⟨"Insufficient stock for " ++ p.name ++ ". Available: " ++ toString p.stock ++
          ", Requested: " ++ toString it.quantity, 400⟩ :=
  createOrder_insufficient_stock_400 wdb [⟨"p1", 9⟩] "x@y.z" "o9"
    (by decide) (by decide) (by decide) (by decide)

end DigitalStore
